import Mathlib

/-!
Verification of the client-side data synchronization layer of the
social-layer-mobile application: persisted key-value store, domain caches,
remote data gateway, query cache keys, and the optimistic star/RSVP
mutations.  Definitions are shallow embeddings of the TypeScript source
(src/services/caching.ts, the api.ts revision in src/unnamed/part_003, the
events.ts hooks in src/unnamed/part_002, and src/screens/DiscoverScreen.tsx).
-/

namespace SocialLayer

/-! ## Data model (src/types, GraphQL selection sets)

A single record type stands for the JS event objects.  Fields that are only
present on some shapes (the full-detail selection adds participants and
tickets; the view-local join flag is_starred is added by the optimistic
events-list updater) are `Option`-valued: `none` models an absent field. -/

/-- Profile as returned by the REST profile endpoints. -/
structure Profile where
  id : Nat
  handle : String
  nickname : Option String := none
  about : Option String := none
  email : Option String := none
  verified : Bool := false
  status : String := "active"
deriving Repr, DecidableEq

/-- Event object.  participants/tickets are only selected by the full
detail query; is_starred is only attached by the optimistic updater. -/
structure Event where
  id : Nat
  title : String := ""
  group_id : Nat := 0
  start_time : Int := 0
  end_time : Int := 0
  participants_count : Int := 0
  participants : Option (List Nat) := none
  tickets : Option (List Nat) := none
  is_starred : Option Bool := none
deriving Repr, DecidableEq

/-- Result shape of getMyEvents. -/
structure MyEvents where
  attending : List Event
  hosting : List Event
  starred : List Event
deriving Repr, DecidableEq

/-! ## Persisted key-value store (AsyncStorage)

AsyncStorage holds JSON strings; we model the decoded values of the three
shapes this code stores.  A key that holds a value of an unexpected shape
makes the JSON/Set machinery of the source throw, which every call site
catches and treats as a cache miss, so readers below map any unexpected
shape to the miss result. -/

/-- Decoded persisted value: an id array, an event-detail snapshot with its
write timestamp, or a plain string (the auth token). -/
inductive StoredValue where
  | idList (ids : List Nat)
  | detail (event : Event) (timestamp : Int)
  | str (s : String)
deriving Repr, DecidableEq

/-- AsyncStorage keys used by this layer.  The source builds string keys
("starred_events_cache_" ++ userId, "user_events_cache_" ++ userId,
"event_detail_cache_" ++ eventId, "auth_token"); the four families and
their decimal suffixes never collide, so the structured key type is
one-to-one with the source's strings. -/
inductive StoreKey where
  | starredEvents (userId : Nat)
  | userEvents (userId : Nat)
  | eventDetail (eventId : Nat)
  | authToken
deriving Repr, DecidableEq

/-- The device store: key to decoded value. -/
def Storage : Type := StoreKey → Option StoredValue

def Storage.empty : Storage := fun _ => none

def Storage.setItem (st : Storage) (k : StoreKey) (v : StoredValue) : Storage :=
  fun q => if q = k then some v else st q

def Storage.removeItem (st : Storage) (k : StoreKey) : Storage :=
  fun q => if q = k then none else st q

/-- AsyncStorage.clear(): every key is removed. -/
def Storage.clearAll (_ : Storage) : Storage := fun _ => none

/-! JS Set semantics: construction from an array keeps the first occurrence
of each element in insertion order; add appends a missing element; delete
removes it. -/

def insertUnique {α : Type} [DecidableEq α] (acc : List α) (x : α) : List α :=
  if x ∈ acc then acc else acc ++ [x]

def jsSetOf {α : Type} [DecidableEq α] (l : List α) : List α :=
  l.foldl insertUnique []

/-! ## Domain caches (src/services/caching.ts) -/

def starredEventsKey (userId : Nat) : StoreKey := .starredEvents userId

def attendingEventsKey (userId : Nat) : StoreKey := .userEvents userId

def eventDetailKeyStr (eventId : Nat) : StoreKey := .eventDetail eventId

namespace starredEventsCache

/-- starredEventsCache.get: parse the stored array into a Set; any failure
(missing key, wrong shape) yields the empty set. -/
def get (st : Storage) (userId : Nat) : List Nat :=
  match st (starredEventsKey userId) with
  | some (.idList ids) => jsSetOf ids
  | _ => []

/-- starredEventsCache.set: store Array.from of the set. -/
def set (st : Storage) (userId : Nat) (ids : List Nat) : Storage :=
  st.setItem (starredEventsKey userId) (.idList ids)

/-- starredEventsCache.add: read-modify-write, Set.add appends if absent. -/
def add (st : Storage) (userId eventId : Nat) : Storage :=
  set st userId (insertUnique (get st userId) eventId)

/-- starredEventsCache.remove: read-modify-write, Set.delete. -/
def remove (st : Storage) (userId eventId : Nat) : Storage :=
  set st userId ((get st userId).filter (fun x => x ≠ eventId))

end starredEventsCache

namespace attendingEventsCache

def get (st : Storage) (userId : Nat) : List Nat :=
  match st (attendingEventsKey userId) with
  | some (.idList ids) => jsSetOf ids
  | _ => []

def set (st : Storage) (userId : Nat) (ids : List Nat) : Storage :=
  st.setItem (attendingEventsKey userId) (.idList ids)

def add (st : Storage) (userId eventId : Nat) : Storage :=
  set st userId (insertUnique (get st userId) eventId)

def remove (st : Storage) (userId eventId : Nat) : Storage :=
  set st userId ((get st userId).filter (fun x => x ≠ eventId))

end attendingEventsCache

namespace eventDetailCache

/-- 1 hour in milliseconds. -/
def maxAge : Int := 60 * 60 * 1000

/-- eventDetailCache.get at current time now: serve the snapshot only while
now - timestamp < maxAge, otherwise behave as a miss. -/
def get (st : Storage) (now : Int) (eventId : Nat) : Option Event :=
  match st (eventDetailKeyStr eventId) with
  | some (.detail e ts) => if now - ts < maxAge then some e else none
  | _ => none

/-- eventDetailCache.set stamps the entry with the current time. -/
def set (st : Storage) (now : Int) (eventId : Nat) (e : Event) : Storage :=
  st.setItem (eventDetailKeyStr eventId) (.detail e now)

/-- eventDetailCache.clear(eventId): remove the one entry. -/
def clearOne (st : Storage) (eventId : Nat) : Storage :=
  st.removeItem (eventDetailKeyStr eventId)

end eventDetailCache

/-- preloadEventDetails: write every list item into the event-detail cache
(unconditionally overwriting whatever was stored for that id). -/
def preloadEventDetails (st : Storage) (now : Int) (events : List Event) : Storage :=
  events.foldl (fun s e => eventDetailCache.set s now e.id e) st

/-- clearAllCaches: Promise.all of eventDetailCache.clear() and
AsyncStorage.clear(); the unconditional AsyncStorage.clear() removes every
key, the detail-only sweep is subsumed by it. -/
def clearAllCaches (st : Storage) : Storage := st.clearAll

/-! ## Auth token storage (api.ts) -/

def storeAuthToken (st : Storage) (token : String) : Storage :=
  st.setItem .authToken (.str token)

def getAuthToken (st : Storage) : Option String :=
  match st .authToken with
  | some (.str t) => some t
  | _ => none

def removeAuthToken (st : Storage) : Storage :=
  st.removeItem .authToken

/-- C10: clearAllCaches clears the whole persisted store: afterwards the
auth token is gone (getAuthToken returns none) and the starred, attending
and event-detail caches read back empty/absent for every user and event. -/
theorem clearAllCaches_clears_token_and_domain_caches
    (st : Storage) (userId eventId : Nat) (now : Int) :
    getAuthToken (clearAllCaches st) = none ∧
    starredEventsCache.get (clearAllCaches st) userId = [] ∧
    attendingEventsCache.get (clearAllCaches st) userId = [] ∧
    eventDetailCache.get (clearAllCaches st) now eventId = none :=
  ⟨rfl, rfl, rfl, rfl⟩

/-! ## Remote Data Gateway (api.ts, src/unnamed/part_003)

Network I/O is modelled by oracles passed as arguments: an HTTP exchange
either yields a reply (status plus body / parsed payload) or a transport
error.  Each gateway function also reports the REST endpoints it actually
contacted, so that "no network call" is a provable statement. -/

/-- token.startsWith("demo_auth_token_"). -/
def isDemoToken (token : String) : Bool :=
  "demo_auth_token_".data.isPrefixOf token.data

/-- response.ok: HTTP status in the 2xx range. -/
def fetchOk (status : Nat) : Bool := 200 ≤ status && status < 300

/-- Outcome of a fetch whose body is parsed into an α (response.json() may
itself fail, hence the inner Except). -/
inductive FetchOutcome (α : Type) where
  | reply (status : Nat) (parsed : Except String α)
  | netError (msg : String)
deriving Repr

/-- Outcome of a fetch where only the raw body text is consulted. -/
inductive HttpOutcome where
  | reply (status : Nat) (body : String)
  | netError (msg : String)
deriving Repr, DecidableEq

/-- The static placeholder profile returned for demo tokens. -/
def demoProfile : Profile :=
  { id := 1, handle := "demo_user", nickname := some "Demo User",
    about := some "Demo user account", email := some "example@example.com",
    verified := false, status := "active" }

/-- getProfileByToken: missing token, non-2xx, transport and parse failures
all fall to null inside the function; a demo token returns the placeholder
profile without any request.  The Except layer of the result records a
rejected promise, which no branch ever produces. -/
def getProfileByToken (auth_token : Option String) (net : FetchOutcome Profile) :
    Except String (Option Profile) × List String :=
  match auth_token with
  | none => (.ok none, [])
  | some tok =>
    if isDemoToken tok then (.ok (some demoProfile), [])
    else
      match net with
      | .netError _ => (.ok none, ["profile/me"])
      | .reply status parsed =>
        if fetchOk status then
          match parsed with
          | .ok p => (.ok (some p), ["profile/me"])
          | .error _ => (.ok none, ["profile/me"])
        else (.ok none, ["profile/me"])

/-- getProfileByHandle: same null-on-failure contract, no demo path. -/
def getProfileByHandle (handle : String) (net : FetchOutcome Profile) :
    Except String (Option Profile) × List String :=
  match handle, net with
  | _, .netError _ => (.ok none, ["profile/get_by_handle"])
  | _, .reply status parsed =>
    if fetchOk status then
      match parsed with
      | .ok p => (.ok (some p), ["profile/get_by_handle"])
      | .error _ => (.ok none, ["profile/get_by_handle"])
    else (.ok none, ["profile/get_by_handle"])

/-- getEventDetail (REST event/get): null on any failure.  The venue_id
projection of the source is dropped as no claim mentions it. -/
def getEventDetail (event_id : Nat) (net : FetchOutcome Event) :
    Except String (Option Event) × List String :=
  match event_id, net with
  | _, .netError _ => (.ok none, ["event/get"])
  | _, .reply status parsed =>
    if fetchOk status then
      match parsed with
      | .ok e => (.ok (some e), ["event/get"])
      | .error _ => (.ok none, ["event/get"])
    else (.ok none, ["event/get"])

/-- A gateway mutation run: its settled result, the REST endpoints it
contacted, and the artificial delay it waited (milliseconds). -/
structure MutationRun where
  result : Except String Unit
  requests : List String
  delayMs : Nat
deriving Repr

/-- attendEvent: demo tokens resolve after a 500 ms simulated delay with no
request; otherwise one POST to event/join, throwing the body (or a status
message when the body is empty) on a non-2xx reply. -/
def attendEvent (eventId : Nat) (authToken : String) (net : HttpOutcome) : MutationRun :=
  if isDemoToken authToken then { result := .ok (), requests := [], delayMs := 500 }
  else
    match eventId, net with
    | _, .netError msg => { result := .error msg, requests := ["event/join"], delayMs := 0 }
    | _, .reply status body =>
      if fetchOk status then { result := .ok (), requests := ["event/join"], delayMs := 0 }
      else
        { result := .error (if body ≠ "" then body else "Failed to join event: " ++ toString status),
          requests := ["event/join"], delayMs := 0 }

/-- cancelAttendance: as attendEvent, POST to event/cancel, 500 ms demo delay. -/
def cancelAttendance (eventId : Nat) (authToken : String) (net : HttpOutcome) : MutationRun :=
  if isDemoToken authToken then { result := .ok (), requests := [], delayMs := 500 }
  else
    match eventId, net with
    | _, .netError msg => { result := .error msg, requests := ["event/cancel"], delayMs := 0 }
    | _, .reply status body =>
      if fetchOk status then { result := .ok (), requests := ["event/cancel"], delayMs := 0 }
      else
        { result := .error (if body ≠ "" then body else "Failed to cancel attendance: " ++ toString status),
          requests := ["event/cancel"], delayMs := 0 }

/-- starEvent: demo tokens resolve after 300 ms with no request; otherwise
one POST to comment/star. -/
def starEvent (eventId : Nat) (authToken : String) (net : HttpOutcome) : MutationRun :=
  if isDemoToken authToken then { result := .ok (), requests := [], delayMs := 300 }
  else
    match eventId, net with
    | _, .netError msg => { result := .error msg, requests := ["comment/star"], delayMs := 0 }
    | _, .reply status body =>
      if fetchOk status then { result := .ok (), requests := ["comment/star"], delayMs := 0 }
      else
        { result := .error (if body ≠ "" then body else "Failed to star event: " ++ toString status),
          requests := ["comment/star"], delayMs := 0 }

/-- unstarEvent: demo tokens resolve after 300 ms with no request; otherwise
one POST to comment/unstar. -/
def unstarEvent (eventId : Nat) (authToken : String) (net : HttpOutcome) : MutationRun :=
  if isDemoToken authToken then { result := .ok (), requests := [], delayMs := 300 }
  else
    match eventId, net with
    | _, .netError msg => { result := .error msg, requests := ["comment/unstar"], delayMs := 0 }
    | _, .reply status body =>
      if fetchOk status then { result := .ok (), requests := ["comment/unstar"], delayMs := 0 }
      else
        { result := .error (if body ≠ "" then body else "Failed to unstar event: " ++ toString status),
          requests := ["comment/unstar"], delayMs := 0 }

/-- getMyEvents: resolves the profile first (demo tokens get the placeholder
profile with no request), then for demo tokens returns the static empty
lists without contacting the server; otherwise two GraphQL queries plus the
starred-list REST read, whose failure degrades to an empty starred list.
The owner/geo re-mapping of starred items is dropped; the source's
.reverse() on the starred list is kept. -/
def getMyEvents (authToken : String) (profNet : FetchOutcome Profile)
    (attendingNet hostingNet : Except String (List Event))
    (starredNet : FetchOutcome (List Event)) :
    Except String MyEvents × List String :=
  let prof := getProfileByToken (some authToken) profNet
  match prof.1 with
  | .error e => (.error e, prof.2)
  | .ok none => (.error "Unable to get user profile", prof.2)
  | .ok (some _) =>
    if isDemoToken authToken then
      (.ok { attending := [], hosting := [], starred := [] }, prof.2)
    else
      match attendingNet with
      | .error e => (.error e, prof.2 ++ ["graphql"])
      | .ok attending =>
        match hostingNet with
        | .error e => (.error e, prof.2 ++ ["graphql", "graphql"])
        | .ok hosting =>
          let starred :=
            match starredNet with
            | .netError _ => []
            | .reply status parsed =>
              if fetchOk status then
                match parsed with
                | .ok evs => evs.reverse
                | .error _ => []
              else []
          (.ok { attending := attending, hosting := hosting, starred := starred },
           prof.2 ++ ["graphql", "graphql", "event/my_event_list"])

/-- C7: a token with the demo marker short-circuits all four mutations into
a simulated success (500 ms for attend/cancel, 300 ms for star/unstar) with
no network request, and short-circuits the authenticated reads: the profile
read returns the static demo profile and getMyEvents the static empty
lists, with no request in either case. -/
theorem demo_token_short_circuits
    (eventId : Nat) (token : String) (h : isDemoToken token = true)
    (netA netC netS netU : HttpOutcome) (profNet : FetchOutcome Profile)
    (attendingNet hostingNet : Except String (List Event))
    (starredNet : FetchOutcome (List Event)) :
    attendEvent eventId token netA = { result := .ok (), requests := [], delayMs := 500 } ∧
    cancelAttendance eventId token netC = { result := .ok (), requests := [], delayMs := 500 } ∧
    starEvent eventId token netS = { result := .ok (), requests := [], delayMs := 300 } ∧
    unstarEvent eventId token netU = { result := .ok (), requests := [], delayMs := 300 } ∧
    getProfileByToken (some token) profNet = (.ok (some demoProfile), []) ∧
    getMyEvents token profNet attendingNet hostingNet starredNet =
      (.ok { attending := [], hosting := [], starred := [] }, []) := by
  refine ⟨?_, ?_, ?_, ?_, ?_, ?_⟩ <;>
    simp [attendEvent, cancelAttendance, starEvent, unstarEvent,
      getProfileByToken, getMyEvents, h]

/-- Witness for C7 at the concrete E2E input: demo_auth_token_123 is a demo
token and attendEvent(7, demo_auth_token_123) resolves successfully after
500 ms with no network request, even when the network is down. -/
theorem demo_token_short_circuits_witness :
    isDemoToken "demo_auth_token_123" = true ∧
    attendEvent 7 "demo_auth_token_123" (.netError "offline") =
      { result := .ok (), requests := [], delayMs := 500 } :=
  ⟨by decide,
   (demo_token_short_circuits 7 "demo_auth_token_123" (by decide)
      (.netError "offline") (.netError "offline") (.netError "offline")
      (.netError "offline") (.netError "offline") (.ok []) (.ok [])
      (.netError "offline")).1⟩

/-- C8: the gateway read functions getProfileByToken, getProfileByHandle
and getEventDetail never reject: every run settles with an ok value, and a
missing token, a non-2xx reply, a transport error, or a parse failure each
yield ok none rather than an error. -/
theorem gateway_reads_never_throw :
    (∀ (t : Option String) (net : FetchOutcome Profile),
        ∃ v, (getProfileByToken t net).1 = .ok v) ∧
    (∀ (h : String) (net : FetchOutcome Profile),
        ∃ v, (getProfileByHandle h net).1 = .ok v) ∧
    (∀ (i : Nat) (net : FetchOutcome Event),
        ∃ v, (getEventDetail i net).1 = .ok v) ∧
    (∀ net, (getProfileByToken none net).1 = .ok none) ∧
    (∀ t status p, isDemoToken t = false → fetchOk status = false →
        (getProfileByToken (some t) (.reply status p)).1 = .ok none) ∧
    (∀ t m, isDemoToken t = false →
        (getProfileByToken (some t) (.netError m)).1 = .ok none) ∧
    (∀ t status m, isDemoToken t = false → fetchOk status = true →
        (getProfileByToken (some t) (.reply status (.error m))).1 = .ok none) ∧
    (∀ i status m, fetchOk status = false →
        (getEventDetail i (.reply status m)).1 = .ok none) ∧
    (∀ i m, (getEventDetail i (.netError m)).1 = .ok none) ∧
    (∀ h m, (getProfileByHandle h (.netError m)).1 = .ok none) := by
  refine ⟨?_, ?_, ?_, ?_, ?_, ?_, ?_, ?_, ?_, ?_⟩
  · intro t net
    match t with
    | none => exact ⟨none, rfl⟩
    | some tok =>
      by_cases hd : isDemoToken tok = true
      · exact ⟨some demoProfile, by simp [getProfileByToken, hd]⟩
      · match net with
        | .netError m => exact ⟨none, by simp [getProfileByToken, hd]⟩
        | .reply status parsed =>
          by_cases hs : fetchOk status = true
          · match parsed with
            | .ok p => exact ⟨some p, by simp [getProfileByToken, hd, hs]⟩
            | .error m => exact ⟨none, by simp [getProfileByToken, hd, hs]⟩
          · exact ⟨none, by simp [getProfileByToken, hd, hs]⟩
  · intro h net
    match net with
    | .netError m => exact ⟨none, by simp [getProfileByHandle]⟩
    | .reply status parsed =>
      by_cases hs : fetchOk status = true
      · match parsed with
        | .ok p => exact ⟨some p, by simp [getProfileByHandle, hs]⟩
        | .error m => exact ⟨none, by simp [getProfileByHandle, hs]⟩
      · exact ⟨none, by simp [getProfileByHandle, hs]⟩
  · intro i net
    match net with
    | .netError m => exact ⟨none, by simp [getEventDetail]⟩
    | .reply status parsed =>
      by_cases hs : fetchOk status = true
      · match parsed with
        | .ok e => exact ⟨some e, by simp [getEventDetail, hs]⟩
        | .error m => exact ⟨none, by simp [getEventDetail, hs]⟩
      · exact ⟨none, by simp [getEventDetail, hs]⟩
  · intro net; rfl
  · intro t status p hd hs; simp [getProfileByToken, hd, hs]
  · intro t m hd; simp [getProfileByToken, hd]
  · intro t status m hd hs; simp [getProfileByToken, hd, hs]
  · intro i status m hs; simp [getEventDetail, hs]
  · intro i m; simp [getEventDetail]
  · intro h m; simp [getProfileByHandle]

/-- Witness for C8 at concrete inputs: a 404 reply to a real token and a
transport error on event/get both settle as ok none. -/
theorem gateway_reads_never_throw_witness :
    (getProfileByToken (some "real_token") (.reply 404 (.error "not json"))).1 =
      .ok none ∧
    (getEventDetail 9 (.netError "offline")).1 = .ok none :=
  ⟨gateway_reads_never_throw.2.2.2.2.1 "real_token" 404 (.error "not json")
      (by decide) (by decide),
   gateway_reads_never_throw.2.2.2.2.2.2.2.2.1 9 "offline"⟩

/-! ## Event list queries (GET_EVENTS, api.ts and events.ts)

The GraphQL document orders by start_time ascending and filters by
group_id; useInfiniteEvents additionally merges an end_time lower bound
into the where clause when upcomingOnly is set.  EventsVariables is the
effective executed request: document constraints plus variables. -/

def DEFAULT_GROUP_ID : Nat := 3579

structure EventsWhere where
  group_id : Nat
  end_time_gte : Option Int := none
deriving Repr, DecidableEq

structure EventsVariables where
  limit : Nat
  offset : Nat
  whereClause : EventsWhere
deriving Repr, DecidableEq

/-- getEventsForGroup (api.ts revision in src/unnamed/part_003): only the
group id is a parameter; limit 50, offset 0, no time constraint. -/
def getEventsForGroup (groupId : Nat := DEFAULT_GROUP_ID) : EventsVariables :=
  { limit := 50, offset := 0, whereClause := { group_id := groupId } }

/-- useEvents builds its query as getEventsForGroup(groupId, upcomingOnly);
getEventsForGroup declares only groupId, so the second argument is dropped
and the request is the same for both filter values. -/
def useEventsQuery (groupId : Nat) (upcomingOnly : Bool) : EventsVariables :=
  getEventsForGroup groupId

/-- Modelled from the spec: getEventsWithPagination is imported by the
events hooks but defined in no api.ts revision under src; section 4.2 of
the spec specifies the event list query as parameterized by group id and
offset/limit pagination, ordered by ascending start time. -/
def getEventsWithPagination (groupId limitN offset : Nat) : EventsVariables :=
  { limit := limitN, offset := offset, whereClause := { group_id := groupId } }

/-- useInfiniteEvents queryFn: pagination request with limit 20, and when
upcomingOnly holds, end_time gte now merged into the where clause. -/
def useInfiniteEventsQuery (groupId : Nat) (upcomingOnly : Bool) (now : Int)
    (pageParam : Nat) : EventsVariables :=
  let v := getEventsWithPagination groupId 20 pageParam
  if upcomingOnly then
    { v with whereClause := { v.whereClause with end_time_gte := some now } }
  else v

/-- Hasura where-clause semantics for the two constraints this app uses. -/
def matchesWhere (w : EventsWhere) (e : Event) : Bool :=
  e.group_id == w.group_id &&
    (match w.end_time_gte with
     | none => true
     | some t => decide (t ≤ e.end_time))

/-- The list selection set: no participants, no tickets. -/
def listShape (e : Event) : Event :=
  { e with participants := none, tickets := none }

/-- Ascending start time. -/
def startLE (a b : Event) : Prop := a.start_time ≤ b.start_time

instance : DecidableRel startLE := fun a b => Int.decLe a.start_time b.start_time

instance : IsTrans Event startLE := ⟨fun _ _ _ h h2 => le_trans h h2⟩

instance : IsTotal Event startLE := ⟨fun a b => le_total a.start_time b.start_time⟩

/-- Server execution of the events query: filter by the where clause,
order by ascending start time, apply offset and limit, and project the
list selection set. -/
def execEventsQuery (db : List Event) (v : EventsVariables) : List Event :=
  ((((db.filter (matchesWhere v.whereClause)).insertionSort startLE).drop
      v.offset).take v.limit).map listShape

/-- Result shape of the useInfiniteEvents queryFn: the page plus the next
offset, defined exactly when the page is full (20 items). -/
structure EventsPageResult where
  events : List Event
  nextOffset : Option Nat
deriving Repr, DecidableEq

def useInfiniteEventsPage (db : List Event) (groupId : Nat) (upcomingOnly : Bool)
    (now : Int) (pageParam : Nat) : EventsPageResult :=
  let events := execEventsQuery db (useInfiniteEventsQuery groupId upcomingOnly now pageParam)
  { events := events,
    nextOffset := if events.length == 20 then some (pageParam + 20) else none }

/-- A db event that already ended, used to exhibit the ignored filter. -/
def endedEvent : Event :=
  { id := 1, group_id := 3579, start_time := 0, end_time := 5 }

/-- C6 counterexample: useEvents builds the identical request for
upcomingOnly = true and false — the value is dropped by getEventsForGroup,
which declares only groupId — so with upcomingOnly = true the request
carries no end-time constraint and an event that ended at time 5 is still
returned at time 10. -/
theorem useEvents_upcomingOnly_ignored :
    useEventsQuery 3579 true = useEventsQuery 3579 false ∧
    (useEventsQuery 3579 true).whereClause.end_time_gte = none ∧
    execEventsQuery [endedEvent] (useEventsQuery 3579 true) = [listShape endedEvent] ∧
    endedEvent.end_time < 10 := by
  refine ⟨rfl, rfl, by decide, by decide⟩

/-- C6 amended: only the infinite-scroll query applies the upcoming-only
filter — its where clause carries end_time ≥ now, so every event of such a
page has not yet ended; the executed query orders by ascending start time;
and an infinite page of exactly 20 items (its limit) yields a defined
nextOffset of pageParam + 20, signalling a likely further page.  The plain
useEvents request ignores its upcomingOnly parameter (see the
counterexample). -/
theorem events_upcoming_filter_order_and_paging
    (db : List Event) (groupId : Nat) (now : Int) (pageParam : Nat)
    (v : EventsVariables) :
    (∀ e ∈ (useInfiniteEventsPage db groupId true now pageParam).events,
        now ≤ e.end_time) ∧
    List.Sorted startLE (execEventsQuery db v) ∧
    ((useInfiniteEventsPage db groupId true now pageParam).nextOffset =
        some (pageParam + 20) ↔
      (useInfiniteEventsPage db groupId true now pageParam).events.length = 20) := by
  refine ⟨?_, ?_, ?_⟩
  · intro e he
    simp only [useInfiniteEventsPage, execEventsQuery, List.mem_map] at he
    obtain ⟨e', he', rfl⟩ := he
    have h1 : e' ∈ ((db.filter (matchesWhere
        (useInfiniteEventsQuery groupId true now pageParam).whereClause)).insertionSort
          startLE) :=
      List.drop_subset _ _ (List.take_subset _ _ he')
    have h2 : e' ∈ db.filter (matchesWhere
        (useInfiniteEventsQuery groupId true now pageParam).whereClause) :=
      (List.perm_insertionSort startLE _).subset h1
    have h3 := (List.mem_filter.mp h2).2
    simp only [useInfiniteEventsQuery, getEventsWithPagination, matchesWhere,
      if_true, Bool.and_eq_true, decide_eq_true_eq] at h3
    exact h3.2
  · have hs : List.Sorted startLE
        ((db.filter (matchesWhere v.whereClause)).insertionSort startLE) :=
      List.sorted_insertionSort startLE _
    have hs2 : List.Sorted startLE
        ((((db.filter (matchesWhere v.whereClause)).insertionSort startLE).drop
            v.offset).take v.limit) :=
      List.Pairwise.sublist ((List.take_sublist _ _).trans (List.drop_sublist _ _)) hs
    exact List.pairwise_map.mpr (List.Pairwise.imp (fun h => h) hs2)
  · simp only [useInfiniteEventsPage]
    by_cases h : (execEventsQuery db
        (useInfiniteEventsQuery groupId true now pageParam)).length = 20
    · simp [h]
    · simp [h]

/-- Witness for C6's amended theorem: a concrete db of one live event at
time 50; the upcoming page contains it, its end time is after now, and the
page (1 item, not 20) signals no further page. -/
theorem events_upcoming_filter_order_and_paging_witness :
    (50 : Int) ≤ (listShape { id := 4, group_id := 7, start_time := 1, end_time := 60 }).end_time ∧
    List.Sorted startLE (execEventsQuery
      [{ id := 4, group_id := 7, start_time := 1, end_time := 60 }]
      (useEventsQuery 7 false)) :=
  ⟨(events_upcoming_filter_order_and_paging
      [{ id := 4, group_id := 7, start_time := 1, end_time := 60 }] 7 50 0
      (useEventsQuery 7 false)).1
      (listShape { id := 4, group_id := 7, start_time := 1, end_time := 60 })
      (by decide),
   (events_upcoming_filter_order_and_paging
      [{ id := 4, group_id := 7, start_time := 1, end_time := 60 }] 7 50 0
      (useEventsQuery 7 false)).2.1⟩

/-! ## Infinite pagination accumulation and de-duplication

useInfiniteQuery appends each fetched page to data.pages; DiscoverScreen
flattens data.pages and de-duplicates by event id keeping the first
occurrence (its reduce over acc.find).  Pages are contiguous windows of
the server's start-time-ordered list; overlapping windows arise when the
underlying list shifts between fetches. -/

/-- Page accumulation of the infinite query: the new page is appended. -/
def fetchNextPageData (pages : List (List Event)) (p : List Event) :
    List (List Event) :=
  pages ++ [p]

/-- One step of DiscoverScreen's reduce: skip an event whose id is already
present, otherwise push it. -/
def dedupStep (acc : List Event) (e : Event) : List Event :=
  if acc.any (fun x => x.id == e.id) then acc else acc ++ [e]

def dedupFrom (acc l : List Event) : List Event := l.foldl dedupStep acc

/-- DiscoverScreen's de-duplication of the flattened pages. -/
def dedupById (l : List Event) : List Event := dedupFrom [] l

/-- The combined list the screen renders: flatten all pages, then de-dup. -/
def combinedEvents (pages : List (List Event)) : List Event :=
  dedupById pages.flatten

theorem dedupFrom_append (acc l1 l2 : List Event) :
    dedupFrom acc (l1 ++ l2) = dedupFrom (dedupFrom acc l1) l2 :=
  List.foldl_append _ _ _ _

theorem dedupFrom_extends (l : List Event) :
    ∀ acc, ∃ t, dedupFrom acc l = acc ++ t := by
  induction l with
  | nil => intro acc; exact ⟨[], (List.append_nil acc).symm⟩
  | cons e l ih =>
    intro acc
    show ∃ t, dedupFrom (dedupStep acc e) l = acc ++ t
    by_cases h : acc.any (fun x => x.id == e.id)
    · obtain ⟨t, ht⟩ := ih acc
      exact ⟨t, by simpa [dedupStep, h] using ht⟩
    · obtain ⟨t, ht⟩ := ih (acc ++ [e])
      exact ⟨[e] ++ t, by simp [dedupStep, h] at ht ⊢; simpa using ht⟩

theorem dedupFrom_nodup (l : List Event) :
    ∀ acc, (acc.map Event.id).Nodup → ((dedupFrom acc l).map Event.id).Nodup := by
  induction l with
  | nil => intro acc h; exact h
  | cons e l ih =>
    intro acc h
    show ((dedupFrom (dedupStep acc e) l).map Event.id).Nodup
    by_cases hmem : acc.any (fun x => x.id == e.id)
    · simpa [dedupStep, hmem] using ih acc h
    · have hnot : e.id ∉ acc.map Event.id := by
        intro hc
        obtain ⟨x, hx, hxe⟩ := List.mem_map.mp hc
        have hany : acc.any (fun y => y.id == e.id) = true := by
          refine List.any_eq_true.mpr ⟨x, hx, ?_⟩
          simpa using hxe
        exact hmem hany
      have hstep : dedupStep acc e = acc ++ [e] := by simp [dedupStep, hmem]
      rw [hstep]
      exact ih (acc ++ [e]) (by simp [List.nodup_append, h, hnot])

theorem dedupFrom_skip (l2 : List Event) :
    ∀ l1 acc, (∀ e ∈ l1, e.id ∈ acc.map Event.id) →
      dedupFrom acc (l1 ++ l2) = dedupFrom acc l2 := by
  intro l1
  induction l1 with
  | nil => intro acc _; rfl
  | cons e l1 ih =>
    intro acc h
    have he : e.id ∈ acc.map Event.id := h e (List.mem_cons_self e l1)
    obtain ⟨x, hx, hxe⟩ := List.mem_map.mp he
    have hany : acc.any (fun x => x.id == e.id) = true :=
      List.any_eq_true.mpr ⟨x, hx, by simp [hxe]⟩
    show dedupFrom (dedupStep acc e) (l1 ++ l2) = dedupFrom acc l2
    rw [show dedupStep acc e = acc from by simp [dedupStep, hany]]
    exact ih acc (fun x hxl => h x (List.mem_cons_of_mem e hxl))

theorem dedupFrom_fresh (l : List Event) :
    ∀ acc, (l.map Event.id).Nodup → (∀ e ∈ l, e.id ∉ acc.map Event.id) →
      dedupFrom acc l = acc ++ l := by
  induction l with
  | nil => intro acc _ _; exact (List.append_nil acc).symm
  | cons e l ih =>
    intro acc hnd hdisj
    have hcons : (Event.id e :: l.map Event.id).Nodup := by simpa using hnd
    have hid : e.id ∉ l.map Event.id := (List.nodup_cons.mp hcons).1
    have htl : (l.map Event.id).Nodup := (List.nodup_cons.mp hcons).2
    have hnot : e.id ∉ acc.map Event.id := hdisj e (List.mem_cons_self e l)
    have hany : acc.any (fun x => x.id == e.id) = false := by
      by_contra hc
      obtain ⟨x, hx, hxe⟩ := List.any_eq_true.mp (Bool.of_not_eq_false hc)
      exact hnot (List.mem_map.mpr ⟨x, hx, by simpa using hxe⟩)
    have hstep : dedupStep acc e = acc ++ [e] := by simp [dedupStep, hany]
    show dedupFrom (dedupStep acc e) l = acc ++ e :: l
    rw [hstep]
    have hdisj2 : ∀ x ∈ l, x.id ∉ (acc ++ [e]).map Event.id := by
      intro x hxl hc
      rw [List.map_append] at hc
      rcases List.mem_append.mp hc with hin | hin
      · exact hdisj x (List.mem_cons_of_mem e hxl) hin
      · have hxe : x.id = e.id := by simpa using hin
        exact hid (by rw [← hxe]; exact List.mem_map_of_mem Event.id hxl)
    rw [ih (acc ++ [e]) htl hdisj2]
    simp

theorem drop_take_split {α : Type} (M : List α) (a n : Nat) (h : a ≤ n) :
    M.drop a = (M.take n).drop a ++ M.drop n := by
  by_cases hl : a ≤ M.length
  · rw [show M.drop a = (M.take n ++ M.drop n).drop a from by rw [List.take_append_drop]]
    exact List.drop_append_of_le_length (by rw [List.length_take]; exact le_min h hl)
  · push_neg at hl
    rw [List.drop_eq_nil_of_le (le_of_lt hl),
      List.drop_eq_nil_of_le (le_trans (by rw [List.length_take]; exact min_le_right _ _)
        (le_of_lt hl)),
      List.drop_eq_nil_of_le (le_trans (le_of_lt hl) h)]
    rfl

/-- De-duplicating an overlapping (or contiguous) later window of a
duplicate-free master list against an already-combined prefix extends the
prefix exactly to the window's end. -/
theorem dedupFrom_take_slice (L : List Event) (hnd : (L.map Event.id).Nodup)
    (a m b : Nat) (ham : a ≤ m) (hmb : m ≤ b) :
    dedupFrom (L.take m) ((L.take b).drop a) = L.take b := by
  have htt : (L.take b).take m = L.take m := by
    rw [List.take_take]; rw [min_eq_left hmb]
  have hsplit : (L.take b).drop a = (L.take m).drop a ++ (L.take b).drop m := by
    rw [← htt]; exact drop_take_split _ a m ham
  have hskip : dedupFrom (L.take m) ((L.take m).drop a ++ (L.take b).drop m) =
      dedupFrom (L.take m) ((L.take b).drop m) :=
    dedupFrom_skip _ _ _
      (fun e he => List.mem_map_of_mem Event.id (List.drop_subset _ _ he))
  have hsubdrop : List.Sublist ((L.take b).drop m) L :=
    (List.drop_sublist _ _).trans (List.take_sublist _ _)
  have hndb : ((L.take b).map Event.id).Nodup :=
    List.Nodup.sublist ((List.take_sublist _ _).map Event.id) hnd
  have hdisj : ∀ e ∈ (L.take b).drop m, e.id ∉ (L.take m).map Event.id := by
    intro e he hc
    have hsplit2 : L.take b = L.take m ++ (L.take b).drop m := by
      rw [← htt]; exact (List.take_append_drop m _).symm
    rw [hsplit2, List.map_append] at hndb
    exact (List.nodup_append.mp hndb).2.2 hc (List.mem_map_of_mem Event.id he)
  have hfresh : dedupFrom (L.take m) ((L.take b).drop m) =
      L.take m ++ (L.take b).drop m :=
    dedupFrom_fresh _ _
      (List.Nodup.sublist (hsubdrop.map Event.id) hnd) hdisj
  rw [hsplit, hskip, hfresh, ← htt, List.take_append_drop]

/-- Offsets of a sequence of pages: each page's window starts at or before
the frontier reached so far and ends at or after it (overlap or contiguity,
no gap), as offset pagination over a shifting list produces. -/
def ChainFrom : Nat → List (Nat × Nat) → Bool
  | _, [] => true
  | m, ab :: r => decide (ab.1 ≤ m) && decide (m ≤ ab.2) && ChainFrom ab.2 r

/-- The pages obtained as windows of the master list L. -/
def slicesOf (L : List Event) (ps : List (Nat × Nat)) : List (List Event) :=
  ps.map (fun ab => (L.take ab.2).drop ab.1)

/-- The frontier after all pages. -/
def finalEnd : Nat → List (Nat × Nat) → Nat
  | m, [] => m
  | _, ab :: r => finalEnd ab.2 r

theorem combined_chain (L : List Event) (hnd : (L.map Event.id).Nodup) :
    ∀ (ps : List (Nat × Nat)) (m : Nat), ChainFrom m ps = true →
      dedupFrom (L.take m) (slicesOf L ps).flatten = L.take (finalEnd m ps) := by
  intro ps
  induction ps with
  | nil => intro m _; rfl
  | cons ab r ih =>
    intro m hch
    simp only [ChainFrom, Bool.and_eq_true, decide_eq_true_eq] at hch
    obtain ⟨⟨ham, hmb⟩, hr⟩ := hch
    show dedupFrom (L.take m) (((L.take ab.2).drop ab.1) :: slicesOf L r).flatten =
      L.take (finalEnd ab.2 r)
    rw [List.flatten_cons, dedupFrom_append,
      dedupFrom_take_slice L hnd ab.1 m ab.2 ham hmb]
    exact ih ab.2 hr

/-- C4: pages accumulate — the combined list after appending a page extends
the previous combined list as a prefix, never replaces it; the combined
list carries each event id at most once for every page sequence; and for
pages that are (possibly overlapping) windows of a duplicate-free master
list ordered by ascending start time, the combined list is exactly the
master list up to the last window's end, hence ordered by ascending start
time with each id exactly once. -/
theorem infinite_pages_append_dedup_order
    (pages : List (List Event)) (p : List Event)
    (L : List Event) (ps : List (Nat × Nat))
    (hsort : List.Sorted startLE L) (hnd : (L.map Event.id).Nodup)
    (hchain : ChainFrom 0 ps = true) :
    (combinedEvents pages <+: combinedEvents (fetchNextPageData pages p)) ∧
    ((combinedEvents pages).map Event.id).Nodup ∧
    combinedEvents (slicesOf L ps) = L.take (finalEnd 0 ps) ∧
    List.Sorted startLE (combinedEvents (slicesOf L ps)) ∧
    ((combinedEvents (slicesOf L ps)).map Event.id).Nodup := by
  have hceq : combinedEvents (slicesOf L ps) = L.take (finalEnd 0 ps) := by
    have h := combined_chain L hnd ps 0 hchain
    simpa [combinedEvents, dedupById] using h
  refine ⟨?_, ?_, hceq, ?_, ?_⟩
  · have hflat : combinedEvents (fetchNextPageData pages p) =
        dedupFrom (combinedEvents pages) p := by
      simp [combinedEvents, fetchNextPageData, dedupById, List.flatten_append,
        dedupFrom_append]
    obtain ⟨t, ht⟩ := dedupFrom_extends p (combinedEvents pages)
    rw [hflat, ht]
    exact ⟨t, rfl⟩
  · exact dedupFrom_nodup _ _ (by simp)
  · rw [hceq]
    exact List.Pairwise.sublist (List.take_sublist _ _) hsort
  · rw [hceq]
    exact List.Nodup.sublist ((List.take_sublist _ _).map Event.id) hnd

/-- The master list for the P5 scenario: 34 events with ids 1..34 at
increasing start times. -/
def wEvents : List Event :=
  (List.range 34).map (fun i =>
    { id := i + 1, start_time := (i : Int) + 1, end_time := (i : Int) + 2 })

/-- Witness for C4 at the P5 inputs: page 0 is ids 1..20, page 1 is the
overlapping ids 15..34; the hypotheses hold and the combined cached list is
the full master list — each id exactly once, ascending start times. -/
theorem infinite_pages_append_dedup_order_witness :
    (slicesOf wEvents [(0, 20), (14, 34)]).map (List.map Event.id) =
      [(List.range 20).map (· + 1), (List.range 20).map (· + 15)] ∧
    combinedEvents (slicesOf wEvents [(0, 20), (14, 34)]) =
      wEvents.take (finalEnd 0 [(0, 20), (14, 34)]) ∧
    List.Sorted startLE (combinedEvents (slicesOf wEvents [(0, 20), (14, 34)])) := by
  have h := infinite_pages_append_dedup_order [] [] wEvents [(0, 20), (14, 34)]
    (by decide) (by decide) (by decide)
  exact ⟨by decide, h.2.2.1, h.2.2.2.1⟩

/-! ## Query client configuration (createQueryClient, caching.ts) -/

structure QueryClientConfig where
  queriesStaleTime : Nat
  queriesGcTime : Nat
  queriesRetry : Nat
  refetchOnWindowFocus : Bool
  refetchOnReconnect : Bool
  mutationsRetry : Nat
deriving Repr, DecidableEq

/-- createQueryClient: 10 min staleTime, 30 min gcTime, 2 query retries,
and one retry for failed mutations. -/
def createQueryClient : QueryClientConfig :=
  { queriesStaleTime := 10 * 60 * 1000
    queriesGcTime := 30 * 60 * 1000
    queriesRetry := 2
    refetchOnWindowFocus := false
    refetchOnReconnect := true
    mutationsRetry := 1 }

/-- React Query's mutation executor: run the mutation function; a failure
is retried while retry budget remains.  Returns the settled result, the
final storage, and how many times the mutation function was invoked. -/
def runWithRetry (attempt : Nat → Storage → Except String Unit × Storage) :
    Nat → Nat → Storage → Except String Unit × Storage × Nat
  | fuel, k, s =>
    match attempt k s with
    | (.ok u, s2) => (.ok u, s2, k + 1)
    | (.error e, s2) =>
      match fuel with
      | 0 => (.error e, s2, k + 1)
      | fuel2 + 1 => runWithRetry attempt fuel2 (k + 1) s2

/-! ## Query cache (React Query keyed entries, events.ts)

Query keys are arrays of strings, numbers, booleans and sorted id arrays;
getQueryData / setQueryData address one exact key (the key's hash), while
cancelQueries / invalidateQueries match by prefix and do not change stored
data synchronously. -/

inductive KeyPart where
  | str (s : String)
  | num (n : Nat)
  | flag (b : Bool)
  | nums (ns : List Nat)
deriving Repr, DecidableEq

/-- Cache entry values for the keys this layer stores. -/
inductive QVal where
  | myEvents (v : MyEvents)
  | events (l : List Event)
  | eventDetail (e : Event)
deriving Repr, DecidableEq

def QCache : Type := List KeyPart → Option QVal

def getQueryData (c : QCache) (k : List KeyPart) : Option QVal := c k

def setQueryData (c : QCache) (k : List KeyPart) (v : QVal) : QCache :=
  fun q => if q = k then some v else c q

/-- setQueryData with an updater: when the updater returns undefined the
entry is left untouched (React Query documents exactly this). -/
def setQueryDataWith (c : QCache) (k : List KeyPart) (f : Option QVal → Option QVal) :
    QCache :=
  match f (c k) with
  | none => c
  | some v => setQueryData c k v

/-- Key the star/RSVP mutations snapshot, write and restore. -/
def myEventsBareKey (userId : Nat) : List KeyPart :=
  [.str "myEvents", .num userId]

/-- Key the star mutation reads eventsData from and optimistically maps. -/
def eventsBareKey : List KeyPart := [.str "events"]

/-- Key of useEventDetail and of the RSVP optimistic count update. -/
def eventDetailKey (eventId : Nat) : List KeyPart :=
  [.str "eventDetail", .num eventId]

/-- The key useMyEvents actually subscribes to: it appends isDemoMode and
the sorted demo starred/attending arrays after the user id. -/
def myEventsHookKey (userId : Nat) (isDemoMode : Bool)
    (starred attending : List Nat) : List KeyPart :=
  [.str "myEvents", .num userId, .flag isDemoMode, .nums starred, .nums attending]

/-- The key useEvents actually subscribes to: group id and the
upcomingOnly flag follow the resource name. -/
def eventsHookKey (groupId : Nat) (upcomingOnly : Bool) : List KeyPart :=
  [.str "events", .num groupId, .flag upcomingOnly]

theorem setQueryDataWith_ne (c : QCache) (k : List KeyPart)
    (f : Option QVal → Option QVal) (q : List KeyPart) (h : q ≠ k) :
    setQueryDataWith c k f q = c q := by
  unfold setQueryDataWith
  match f (c k) with
  | none => rfl
  | some v => simp [setQueryData, h]

theorem setQueryDataWith_self (c : QCache) (k : List KeyPart)
    (f : Option QVal → Option QVal) :
    setQueryDataWith c k f k =
      match f (c k) with
      | none => c k
      | some v => some v := by
  unfold setQueryDataWith
  match f (c k) with
  | none => rfl
  | some v => simp [setQueryData]

/-- The onError restore step: write the snapshot back when it was truthy
(a present entry), leave the cache alone when the snapshot was undefined. -/
def restoreAt (c : QCache) (k : List KeyPart) (prev : Option QVal) : QCache :=
  match prev with
  | some v => setQueryData c k v
  | none => c

theorem restoreAt_ne (c : QCache) (k : List KeyPart) (prev : Option QVal)
    (q : List KeyPart) (h : q ≠ k) : restoreAt c k prev q = c q := by
  cases prev <;> simp [restoreAt, setQueryData, h]

theorem restoreAt_self (c : QCache) (k : List KeyPart) (v : QVal) :
    restoreAt c k (some v) k = some v := by
  simp [restoreAt, setQueryData]

/-- Write two entries through updaters that leave absent entries absent,
then restore both snapshots: the cache is pointwise unchanged.  This is the
snapshot/rollback discipline of the onMutate / onError pair. -/
theorem twoKey_restore (c : QCache) (k1 k2 : List KeyPart) (hne : k1 ≠ k2)
    (f1 f2 : Option QVal → Option QVal) (h1 : f1 none = none) (h2 : f2 none = none)
    (q : List KeyPart) :
    restoreAt (restoreAt (setQueryDataWith (setQueryDataWith c k1 f1) k2 f2)
        k1 (c k1)) k2 (c k2) q = c q := by
  by_cases hq2 : q = k2
  · rw [hq2]
    match hc2 : c k2 with
    | some v => rw [restoreAt_self]
    | none =>
      show restoreAt (setQueryDataWith (setQueryDataWith c k1 f1) k2 f2)
        k1 (c k1) k2 = none
      rw [restoreAt_ne _ _ _ _ (Ne.symm hne), setQueryDataWith_self,
        setQueryDataWith_ne _ _ _ _ (Ne.symm hne), hc2, h2]
  · rw [restoreAt_ne _ _ _ _ hq2]
    by_cases hq1 : q = k1
    · rw [hq1]
      match hc1 : c k1 with
      | some v => rw [restoreAt_self]
      | none =>
        show setQueryDataWith (setQueryDataWith c k1 f1) k2 f2 k1 = none
        rw [setQueryDataWith_ne _ _ _ _ hne, setQueryDataWith_self, hc1, h1]
    · rw [restoreAt_ne _ _ _ _ hq1, setQueryDataWith_ne _ _ _ _ hq2,
        setQueryDataWith_ne _ _ _ _ hq1]

/-! ## Optimistic star/unstar mutation (useStarEventMutation, events.ts)

onMutate snapshots and writes the keys ['myEvents', userId] and ['events'];
onError writes the truthy snapshots back; the mutation function calls the
gateway and only on success updates the persisted starred set; onSettled
invalidates ['myEvents', userId] by prefix, which marks entries stale but
changes no stored data. -/

/-- onMutate updater for the ['myEvents', userId] entry.  An absent entry
stays absent (the updater returns its undefined input untouched).  The
eventsData lookup reads the bare ['events'] key of the same cache.  A value
of an unexpected shape would make the source's old.starred spread throw;
such a value is left unchanged here. -/
def starMyEventsUpdater (eventId : Nat) (isStarred : Bool) (c : QCache) :
    Option QVal → Option QVal
  | none => none
  | some (QVal.myEvents m) =>
    let newStarred :=
      if isStarred then
        m.starred.eraseP (fun e => e.id == eventId)
      else
        let eventsData : Option (List Event) :=
          match getQueryData c eventsBareKey with
          | some (QVal.events l) => some l
          | _ => none
        match eventsData.bind (fun l => l.find? (fun e => e.id == eventId)) with
        | some ev =>
          if (m.starred.find? (fun e => e.id == eventId)).isSome then m.starred
          else m.starred ++ [ev]
        | none => m.starred
    some (QVal.myEvents { m with starred := newStarred })
  | some other => some other

/-- onMutate updater for the bare ['events'] entry: flip is_starred on the
matching event. -/
def starEventsUpdater (eventId : Nat) (isStarred : Bool) :
    Option QVal → Option QVal
  | none => none
  | some (QVal.events l) =>
    some (QVal.events (l.map (fun e =>
      if e.id == eventId then { e with is_starred := some (!isStarred) } else e)))
  | some other => some other

structure StarContext where
  previousMyEvents : Option QVal
  previousEvents : Option QVal

def starOnMutate (eventId : Nat) (isStarred : Bool) (userId : Nat) (c : QCache) :
    QCache × StarContext :=
  (setQueryDataWith
      (setQueryDataWith c (myEventsBareKey userId)
        (starMyEventsUpdater eventId isStarred c))
      eventsBareKey (starEventsUpdater eventId isStarred),
   { previousMyEvents := getQueryData c (myEventsBareKey userId),
     previousEvents := getQueryData c eventsBareKey })

def starOnError (userId : Nat) (ctx : StarContext) (c : QCache) : QCache :=
  restoreAt (restoreAt c (myEventsBareKey userId) ctx.previousMyEvents)
    eventsBareKey ctx.previousEvents

/-- One invocation of the star mutationFn: gateway star/unstar, then on
success only, update the persisted starred set for the user. -/
def starMutationAttempt (eventId : Nat) (isStarred : Bool) (userId : Option Nat)
    (gwRes : Except String Unit) (s : Storage) : Except String Unit × Storage :=
  match gwRes with
  | .error e => (.error e, s)
  | .ok _ =>
    (.ok (),
     match userId with
     | some uid =>
       if isStarred then starredEventsCache.remove s uid eventId
       else starredEventsCache.add s uid eventId
     | none => s)

structure MutationOutcome where
  cache : QCache
  storage : Storage
  result : Except String Unit
  gatewayCalls : Nat

/-- Whole lifecycle of one star/unstar mutation: onMutate, the retried
mutation function (gw k is the gateway outcome of attempt k), then onError
on terminal failure.  onSettled only invalidates, leaving stored data as
is. -/
def runStarMutation (eventId userId : Nat) (isStarred : Bool)
    (gw : Nat → Except String Unit) (c : QCache) (s : Storage) : MutationOutcome :=
  let om := starOnMutate eventId isStarred userId c
  let r := runWithRetry
    (fun k st => starMutationAttempt eventId isStarred (some userId) (gw k) st)
    createQueryClient.mutationsRetry 0 s
  match r.1 with
  | .ok _ =>
    { cache := om.1, storage := r.2.1, result := .ok (), gatewayCalls := r.2.2 }
  | .error e =>
    { cache := starOnError userId om.2 om.1, storage := r.2.1,
      result := .error e, gatewayCalls := r.2.2 }

/-! ## Optimistic RSVP mutation (useRSVPMutation, events.ts) -/

/-- onMutate updater for the ['myEvents', userId] entry (attending list). -/
def rsvpMyEventsUpdater (eventId : Nat) (isAttending : Bool) (c : QCache) :
    Option QVal → Option QVal
  | none => none
  | some (QVal.myEvents m) =>
    let newAttending :=
      if isAttending then
        m.attending.eraseP (fun e => e.id == eventId)
      else
        let eventsData : Option (List Event) :=
          match getQueryData c eventsBareKey with
          | some (QVal.events l) => some l
          | _ => none
        match eventsData.bind (fun l => l.find? (fun e => e.id == eventId)) with
        | some ev =>
          if (m.attending.find? (fun e => e.id == eventId)).isSome then m.attending
          else m.attending ++ [ev]
        | none => m.attending
    some (QVal.myEvents { m with attending := newAttending })
  | some other => some other

/-- onMutate updater for the ['eventDetail', eventId] entry: adjust
participants_count by plus or minus one, clamped at zero by Math.max. -/
def rsvpDetailUpdater (isAttending : Bool) : Option QVal → Option QVal
  | none => none
  | some (QVal.eventDetail e) =>
    let countChange : Int := if isAttending then -1 else 1
    some (QVal.eventDetail
      { e with participants_count := max 0 (e.participants_count + countChange) })
  | some other => some other

structure RSVPContext where
  previousMyEvents : Option QVal
  previousEventDetail : Option QVal

def rsvpOnMutate (eventId : Nat) (isAttending : Bool) (userId : Nat) (c : QCache) :
    QCache × RSVPContext :=
  (setQueryDataWith
      (setQueryDataWith c (myEventsBareKey userId)
        (rsvpMyEventsUpdater eventId isAttending c))
      (eventDetailKey eventId) (rsvpDetailUpdater isAttending),
   { previousMyEvents := getQueryData c (myEventsBareKey userId),
     previousEventDetail := getQueryData c (eventDetailKey eventId) })

def rsvpOnError (eventId userId : Nat) (ctx : RSVPContext) (c : QCache) : QCache :=
  restoreAt (restoreAt c (myEventsBareKey userId) ctx.previousMyEvents)
    (eventDetailKey eventId) ctx.previousEventDetail

/-- One invocation of the RSVP mutationFn: gateway attend/cancel, then on
success only, update the persisted attending set. -/
def rsvpMutationAttempt (eventId : Nat) (isAttending : Bool) (userId : Option Nat)
    (gwRes : Except String Unit) (s : Storage) : Except String Unit × Storage :=
  match gwRes with
  | .error e => (.error e, s)
  | .ok _ =>
    (.ok (),
     match userId with
     | some uid =>
       if isAttending then attendingEventsCache.remove s uid eventId
       else attendingEventsCache.add s uid eventId
     | none => s)

def runRSVPMutation (eventId userId : Nat) (isAttending : Bool)
    (gw : Nat → Except String Unit) (c : QCache) (s : Storage) : MutationOutcome :=
  let om := rsvpOnMutate eventId isAttending userId c
  let r := runWithRetry
    (fun k st => rsvpMutationAttempt eventId isAttending (some userId) (gw k) st)
    createQueryClient.mutationsRetry 0 s
  match r.1 with
  | .ok _ =>
    { cache := om.1, storage := r.2.1, result := .ok (), gatewayCalls := r.2.2 }
  | .error e =>
    { cache := rsvpOnError eventId userId om.2 om.1, storage := r.2.1,
      result := .error e, gatewayCalls := r.2.2 }

theorem myEventsBareKey_ne_eventsBareKey (userId : Nat) :
    myEventsBareKey userId ≠ eventsBareKey := by
  simp [myEventsBareKey, eventsBareKey]

theorem myEventsBareKey_ne_eventDetailKey (userId eventId : Nat) :
    myEventsBareKey userId ≠ eventDetailKey eventId := by
  simp [myEventsBareKey, eventDetailKey]

/-- C2: when the gateway star/unstar call fails (every attempt errors),
the settled mutation surfaces that error, every query cache entry is
pointwise identical to its pre-mutation value (the snapshotted my-events
and events-list entries are restored verbatim, all other keys were never
touched), the persisted starred set is unchanged for every user — it is
only written after a successful gateway call — and an events-list entry
holding is_starred = true data is intact, so the flag remains true. -/
theorem star_mutation_rollback (eventId userId : Nat) (isStarred : Bool)
    (msg : String) (gw : Nat → Except String Unit)
    (hgw : ∀ k, gw k = .error msg) (c : QCache) (s : Storage) :
    (runStarMutation eventId userId isStarred gw c s).result = .error msg ∧
    (∀ q, (runStarMutation eventId userId isStarred gw c s).cache q = c q) ∧
    (runStarMutation eventId userId isStarred gw c s).storage = s ∧
    (∀ uid, starredEventsCache.get
        (runStarMutation eventId userId isStarred gw c s).storage uid =
      starredEventsCache.get s uid) ∧
    (∀ l, c eventsBareKey = some (QVal.events l) →
      (runStarMutation eventId userId isStarred gw c s).cache eventsBareKey =
        some (QVal.events l)) := by
  have hrt : ∀ q, starOnError userId (starOnMutate eventId isStarred userId c).2
      (starOnMutate eventId isStarred userId c).1 q = c q := fun q =>
    twoKey_restore c (myEventsBareKey userId) eventsBareKey
      (myEventsBareKey_ne_eventsBareKey userId)
      (starMyEventsUpdater eventId isStarred c)
      (starEventsUpdater eventId isStarred) rfl rfl q
  have hr : runWithRetry
      (fun k st => starMutationAttempt eventId isStarred (some userId) (gw k) st)
      createQueryClient.mutationsRetry 0 s = (.error msg, s, 2) := by
    show runWithRetry _ 1 0 s = _
    rw [runWithRetry, hgw 0]
    show runWithRetry _ 0 1 s = _
    rw [runWithRetry, hgw 1]
    rfl
  have hrun : runStarMutation eventId userId isStarred gw c s =
      { cache := starOnError userId (starOnMutate eventId isStarred userId c).2
          (starOnMutate eventId isStarred userId c).1,
        storage := s, result := .error msg, gatewayCalls := 2 } := by
    unfold runStarMutation
    rw [hr]
  refine ⟨by rw [hrun], fun q => by rw [hrun]; exact hrt q, by rw [hrun],
    fun uid => by rw [hrun],
    fun l hl => by rw [hrun]; exact (hrt eventsBareKey).trans hl⟩

/-- Witness for C2: a one-entry cache where event 42 is starred in the
events list; the failing unstar leaves the entry, the flag and the
persisted set untouched and surfaces the error. -/
theorem star_mutation_rollback_witness :
    ((runStarMutation 42 1 true (fun _ => .error "boom")
        (fun q => if q = eventsBareKey then
          some (QVal.events [{ id := 42, is_starred := some true }]) else none)
        Storage.empty).cache eventsBareKey =
      some (QVal.events [{ id := 42, is_starred := some true }])) ∧
    ((runStarMutation 42 1 true (fun _ => .error "boom")
        (fun q => if q = eventsBareKey then
          some (QVal.events [{ id := 42, is_starred := some true }]) else none)
        Storage.empty).result = .error "boom") ∧
    starredEventsCache.get (runStarMutation 42 1 true (fun _ => .error "boom")
        (fun q => if q = eventsBareKey then
          some (QVal.events [{ id := 42, is_starred := some true }]) else none)
        Storage.empty).storage 1 = [] := by
  have h := star_mutation_rollback 42 1 true "boom" (fun _ => .error "boom")
    (fun _ => rfl)
    (fun q => if q = eventsBareKey then
      some (QVal.events [{ id := 42, is_starred := some true }]) else none)
    Storage.empty
  exact ⟨h.2.2.2.2 _ (by decide), h.1, by rw [h.2.2.1]; rfl⟩

/-- C3: with a cached detail entry of count n ≥ 0, attending bumps the
cached participants_count to n + 1 synchronously in onMutate, before any
gateway resolution; cancelling moves it to max 0 (n - 1), clamped at zero
so it is never negative; for either direction the changed count stays after
a successful gateway call and the entry reverts verbatim to its pre-call
value after a failed one. -/
theorem rsvp_optimistic_count (eventId userId : Nat) (c : QCache) (s : Storage)
    (e : Event) (msg : String)
    (hdet : c (eventDetailKey eventId) = some (QVal.eventDetail e))
    (hnn : 0 ≤ e.participants_count) :
    ((rsvpOnMutate eventId false userId c).1 (eventDetailKey eventId) =
      some (QVal.eventDetail
        { e with participants_count := e.participants_count + 1 })) ∧
    ((rsvpOnMutate eventId true userId c).1 (eventDetailKey eventId) =
      some (QVal.eventDetail
        { e with participants_count := max 0 (e.participants_count - 1) })) ∧
    (0 ≤ max (0 : Int) (e.participants_count - 1)) ∧
    ((runRSVPMutation eventId userId false (fun _ => .ok ()) c s).cache
        (eventDetailKey eventId) =
      some (QVal.eventDetail
        { e with participants_count := e.participants_count + 1 })) ∧
    ((runRSVPMutation eventId userId false (fun _ => .error msg) c s).cache
        (eventDetailKey eventId) = some (QVal.eventDetail e)) ∧
    ((runRSVPMutation eventId userId true (fun _ => .ok ()) c s).cache
        (eventDetailKey eventId) =
      some (QVal.eventDetail
        { e with participants_count := max 0 (e.participants_count - 1) })) ∧
    ((runRSVPMutation eventId userId true (fun _ => .error msg) c s).cache
        (eventDetailKey eventId) = some (QVal.eventDetail e)) := by
  have hne := myEventsBareKey_ne_eventDetailKey userId eventId
  have hval : ∀ (b : Bool),
      (rsvpOnMutate eventId b userId c).1 (eventDetailKey eventId) =
      some (QVal.eventDetail { e with participants_count := max 0 (e.participants_count + (if b then (-1 : Int) else 1)) }) := by
    intro b
    show (setQueryDataWith (setQueryDataWith c (myEventsBareKey userId)
        (rsvpMyEventsUpdater eventId b c)) (eventDetailKey eventId)
        (rsvpDetailUpdater b)) (eventDetailKey eventId) = _
    rw [setQueryDataWith_self, setQueryDataWith_ne c _ _ _ (Ne.symm hne), hdet]
    rfl
  have h1 : (rsvpOnMutate eventId false userId c).1 (eventDetailKey eventId) =
      some (QVal.eventDetail
        { e with participants_count := e.participants_count + 1 }) := by
    have h := hval false
    have harith : (0 : Int) ⊔ (e.participants_count +
        if (false : Bool) = true then (-1 : Int) else 1) =
        e.participants_count + 1 := by
      show (0 : Int) ⊔ (e.participants_count + 1) = e.participants_count + 1
      exact max_eq_right (by omega)
    rw [harith] at h
    exact h
  have h2 : (rsvpOnMutate eventId true userId c).1 (eventDetailKey eventId) =
      some (QVal.eventDetail
        { e with participants_count := max 0 (e.participants_count - 1) }) := by
    have h := hval true
    have harith : (0 : Int) ⊔ (e.participants_count +
        if (true : Bool) = true then (-1 : Int) else 1) =
        (0 : Int) ⊔ (e.participants_count - 1) := by
      show (0 : Int) ⊔ (e.participants_count + (-1)) =
        (0 : Int) ⊔ (e.participants_count - 1)
      rw [show e.participants_count + (-1 : Int) = e.participants_count - 1 from by
        ring]
    rw [harith] at h
    exact h
  have hok : (runRSVPMutation eventId userId false (fun _ => .ok ()) c s).cache =
      (rsvpOnMutate eventId false userId c).1 := rfl
  have hrt : ∀ q, rsvpOnError eventId userId
      (rsvpOnMutate eventId false userId c).2
      (rsvpOnMutate eventId false userId c).1 q = c q := fun q =>
    twoKey_restore c (myEventsBareKey userId) (eventDetailKey eventId) hne
      (rsvpMyEventsUpdater eventId false c) (rsvpDetailUpdater false) rfl rfl q
  have hfailr : runWithRetry
      (fun k st => rsvpMutationAttempt eventId false (some userId)
        ((fun _ => Except.error msg) k) st)
      createQueryClient.mutationsRetry 0 s = (.error msg, s, 2) := by
    show runWithRetry _ 1 0 s = _
    rw [runWithRetry]
    show runWithRetry _ 0 1 s = _
    rw [runWithRetry]
    rfl
  have hfail : (runRSVPMutation eventId userId false (fun _ => .error msg) c s).cache =
      rsvpOnError eventId userId (rsvpOnMutate eventId false userId c).2
        (rsvpOnMutate eventId false userId c).1 := by
    unfold runRSVPMutation
    rw [hfailr]
  have hok2 : (runRSVPMutation eventId userId true (fun _ => .ok ()) c s).cache =
      (rsvpOnMutate eventId true userId c).1 := rfl
  have hrt2 : ∀ q, rsvpOnError eventId userId
      (rsvpOnMutate eventId true userId c).2
      (rsvpOnMutate eventId true userId c).1 q = c q := fun q =>
    twoKey_restore c (myEventsBareKey userId) (eventDetailKey eventId) hne
      (rsvpMyEventsUpdater eventId true c) (rsvpDetailUpdater true) rfl rfl q
  have hfailr2 : runWithRetry
      (fun k st => rsvpMutationAttempt eventId true (some userId)
        ((fun _ => Except.error msg) k) st)
      createQueryClient.mutationsRetry 0 s = (.error msg, s, 2) := by
    show runWithRetry _ 1 0 s = _
    rw [runWithRetry]
    show runWithRetry _ 0 1 s = _
    rw [runWithRetry]
    rfl
  have hfail2 : (runRSVPMutation eventId userId true (fun _ => .error msg) c s).cache =
      rsvpOnError eventId userId (rsvpOnMutate eventId true userId c).2
        (rsvpOnMutate eventId true userId c).1 := by
    unfold runRSVPMutation
    rw [hfailr2]
  refine ⟨h1, h2, le_max_left 0 _, by rw [hok]; exact h1, ?_, by rw [hok2]; exact h2, ?_⟩
  · rw [hfail, hrt (eventDetailKey eventId), hdet]
  · rw [hfail2, hrt2 (eventDetailKey eventId), hdet]

/-- Witness for C3 at a concrete detail entry with count 3: attend bumps
the cache to 4 before the gateway resolves; the clamp keeps the cancel
result non-negative; success keeps 4; failure restores 3. -/
theorem rsvp_optimistic_count_witness :
    ((rsvpOnMutate 5 false 1 (fun q => if q = eventDetailKey 5 then
        some (QVal.eventDetail { id := 5, participants_count := 3 }) else none)).1
      (eventDetailKey 5) =
        some (QVal.eventDetail { id := 5, participants_count := 4 })) ∧
    ((runRSVPMutation 5 1 false (fun _ => .error "down")
        (fun q => if q = eventDetailKey 5 then
          some (QVal.eventDetail { id := 5, participants_count := 3 }) else none)
        Storage.empty).cache (eventDetailKey 5) =
      some (QVal.eventDetail { id := 5, participants_count := 3 })) := by
  have h := rsvp_optimistic_count 5 1
    (fun q => if q = eventDetailKey 5 then
      some (QVal.eventDetail { id := 5, participants_count := 3 }) else none)
    Storage.empty { id := 5, participants_count := 3 } "down" (by decide) (by decide)
  exact ⟨h.1, h.2.2.2.2.1⟩

/-- Event 42 as the group-3579 list query returned it into the events hook
entry: not starred. -/
def event42 : Event :=
  { id := 42, title := "Party", group_id := 3579, start_time := 100,
    end_time := 200, is_starred := some false }

/-- The cache of a signed-in user (id 1) with no starred events and the
discover screen mounted: the events list lives under its hook key
['events', 3579, true] and the useMyEvents data under its hook key
['myEvents', 1, false, [], []]; nothing is stored at the bare
['myEvents', 1] or ['events'] keys, which no hook uses. -/
def starScenarioCache : QCache := fun q =>
  if q = eventsHookKey 3579 true then some (QVal.events [event42])
  else if q = myEventsHookKey 1 false [] [] then
    some (QVal.myEvents { attending := [], hosting := [], starred := [] })
  else none

/-- C1 (code bug): star(42) for user 1 writes its optimistic update only to
the bare keys ['myEvents', 1] and ['events'], while the reading hooks
subscribe to the longer keys ['myEvents', 1, false, [], []] and
['events', 3579, true]; exact-key reads therefore never see it.  While the
gateway call is pending both hook entries are unchanged (event 42 still has
is_starred = false and the starred list is still empty), and the bare keys
are still absent because an absent entry makes both updaters return their
undefined input.  Of the claimed scenario only the persisted half holds:
after gateway success the starred set of user 1 contains 42. -/
theorem star_optimistic_update_invisible_to_hooks :
    ((starOnMutate 42 false 1 starScenarioCache).1 (eventsHookKey 3579 true) =
        some (QVal.events [event42]) ∧
      event42.is_starred = some false ∧
      (starOnMutate 42 false 1 starScenarioCache).1 (myEventsHookKey 1 false [] []) =
        some (QVal.myEvents { attending := [], hosting := [], starred := [] }) ∧
      (starOnMutate 42 false 1 starScenarioCache).1 (myEventsBareKey 1) = none ∧
      (starOnMutate 42 false 1 starScenarioCache).1 eventsBareKey = none) ∧
    ((runStarMutation 42 1 false (fun _ => .ok ()) starScenarioCache
        Storage.empty).result = .ok () ∧
      (runStarMutation 42 1 false (fun _ => .ok ()) starScenarioCache
        Storage.empty).cache (eventsHookKey 3579 true) =
          some (QVal.events [event42]) ∧
      starredEventsCache.get (runStarMutation 42 1 false (fun _ => .ok ())
        starScenarioCache Storage.empty).storage 1 = [42]) :=
  ⟨⟨rfl, rfl, rfl, rfl, rfl⟩, rfl, rfl, rfl⟩

/-- C5 counterexample: under createQueryClient's configuration (mutations
retry: 1), one logical star invocation whose gateway call always fails
invokes the gateway mutation function twice, not exactly once. -/
theorem failed_mutation_gateway_called_twice :
    (runStarMutation 9 1 false (fun _ => .error "network request failed")
        (fun _ => none) Storage.empty).gatewayCalls = 2 ∧
    ¬ (runStarMutation 9 1 false (fun _ => .error "network request failed")
        (fun _ => none) Storage.empty).gatewayCalls = 1 := by
  refine ⟨rfl, by decide⟩

/-- C5 amended: the gateway itself performs no retry — a non-demo
attendEvent call issues exactly one request whatever the reply — but the
query client is configured with mutations retry: 1, so a mutation whose
gateway call fails persistently runs its mutation function exactly
mutationsRetry + 1 = 2 times and then surfaces the gateway error to the
caller. -/
theorem mutation_failure_retry_and_surface
    (eventId userId : Nat) (isStarred : Bool) (msg : String) (tok : String)
    (hd : isDemoToken tok = false) (net : HttpOutcome)
    (gw : Nat → Except String Unit) (hgw : ∀ k, gw k = .error msg)
    (c : QCache) (s : Storage) :
    (attendEvent eventId tok net).requests.length = 1 ∧
    (runStarMutation eventId userId isStarred gw c s).gatewayCalls =
      createQueryClient.mutationsRetry + 1 ∧
    (runStarMutation eventId userId isStarred gw c s).result = .error msg := by
  have hr : runWithRetry
      (fun k st => starMutationAttempt eventId isStarred (some userId) (gw k) st)
      createQueryClient.mutationsRetry 0 s = (.error msg, s, 2) := by
    show runWithRetry _ 1 0 s = _
    rw [runWithRetry, hgw 0]
    show runWithRetry _ 0 1 s = _
    rw [runWithRetry, hgw 1]
    rfl
  refine ⟨?_, ?_, ?_⟩
  · cases net with
    | netError m => simp [attendEvent, hd]
    | reply status body =>
      by_cases hs : fetchOk status = true <;> simp [attendEvent, hd, hs]
  · unfold runStarMutation
    rw [hr]
    rfl
  · unfold runStarMutation
    rw [hr]

/-- Witness for C5's amended theorem: one request for a concrete failing
attend call, and two runs of the mutation function for a persistently
failing star mutation. -/
theorem mutation_failure_retry_and_surface_witness :
    (attendEvent 7 "real_token" (.reply 500 "err")).requests.length = 1 ∧
    (runStarMutation 7 1 false (fun _ => .error "down") (fun _ => none)
        Storage.empty).gatewayCalls = createQueryClient.mutationsRetry + 1 :=
  ⟨(mutation_failure_retry_and_surface 7 1 false "down" "real_token" (by decide)
      (.reply 500 "err") (fun _ => .error "down") (fun _ => rfl) (fun _ => none)
      Storage.empty).1,
   (mutation_failure_retry_and_surface 7 1 false "down" "real_token" (by decide)
      (.reply 500 "err") (fun _ => .error "down") (fun _ => rfl) (fun _ => none)
      Storage.empty).2.1⟩

/-! ## Read hooks with storage effects (useEvents / useEventDetail) -/

/-- useEvents queryFn: run the list query, then preload every returned item
into the event-detail domain cache. -/
def useEventsQueryFnRun (db : List Event) (groupId : Nat) (upcomingOnly : Bool)
    (st : Storage) (now : Int) : List Event × Storage :=
  let events := execEventsQuery db (useEventsQuery groupId upcomingOnly)
  (events, preloadEventDetails st now events)

/-- useEventDetail queryFn: without forceRefresh, serve the domain cache
when it is fresh and fall back to the events_by_pk fetch (net) otherwise,
caching a non-null reply; with forceRefresh, clear the entry first and
always fetch.  The Bool records whether the network was consulted. -/
def useEventDetailQueryFn (forceRefresh : Bool) (st : Storage) (now : Int)
    (eventId : Nat) (net : Option Event) : Option Event × Storage × Bool :=
  if forceRefresh then
    let st1 := eventDetailCache.clearOne st eventId
    match net with
    | some e => (some e, eventDetailCache.set st1 now eventId e, true)
    | none => (none, st1, true)
  else
    match eventDetailCache.get st now eventId with
    | some e => (some e, st, false)
    | none =>
      match net with
      | some e => (some e, eventDetailCache.set st now eventId e, true)
      | none => (none, st, true)

theorem preload_untouched (now : Int) (i : Nat) :
    ∀ (events : List Event) (st : Storage), (∀ x ∈ events, x.id ≠ i) →
      preloadEventDetails st now events (StoreKey.eventDetail i) =
        st (StoreKey.eventDetail i) := by
  intro events
  induction events with
  | nil => intro st _; rfl
  | cons e rest ih =>
    intro st h
    show preloadEventDetails (eventDetailCache.set st now e.id e) now rest
      (StoreKey.eventDetail i) = st (StoreKey.eventDetail i)
    rw [ih _ (fun x hx => h x (List.mem_cons_of_mem e hx))]
    have hne : StoreKey.eventDetail i ≠ StoreKey.eventDetail e.id := by
      simp only [ne_eq, StoreKey.eventDetail.injEq]
      exact fun hc => (h e (List.mem_cons_self e rest)) hc.symm
    simp [eventDetailCache.set, Storage.setItem, eventDetailKeyStr, hne]

theorem preload_get (now t : Int) (hfresh : t - now < eventDetailCache.maxAge) :
    ∀ (events : List Event) (st : Storage) (e : Event), e ∈ events →
      (events.map Event.id).Nodup →
      eventDetailCache.get (preloadEventDetails st now events) t e.id = some e := by
  intro events
  induction events with
  | nil => intro st e he _; exact absurd he (List.not_mem_nil e)
  | cons e0 rest ih =>
    intro st e he hnd
    have hcons : (Event.id e0 :: rest.map Event.id).Nodup := by simpa using hnd
    rcases List.mem_cons.mp he with rfl | hmem
    · have hrest : ∀ x ∈ rest, x.id ≠ e.id := by
        intro x hx hc
        exact (List.nodup_cons.mp hcons).1
          (by rw [← hc]; exact List.mem_map_of_mem Event.id hx)
      show eventDetailCache.get
        (preloadEventDetails (eventDetailCache.set st now e.id e) now rest) t e.id =
        some e
      have hu := preload_untouched now e.id rest (eventDetailCache.set st now e.id e)
        hrest
      unfold eventDetailCache.get
      rw [show eventDetailKeyStr e.id = StoreKey.eventDetail e.id from rfl, hu]
      simp [eventDetailCache.set, Storage.setItem, eventDetailKeyStr, hfresh]
    · exact ih (eventDetailCache.set st now e0.id e0) e hmem
        (List.nodup_cons.mp hcons).2

/-- C9: after an event-list fetch, every returned item has been written
into the event-detail domain cache under its id with the fetch timestamp,
overwriting whatever snapshot (including a full detail one) was stored for
that id; the stored object is list-shaped — participants and tickets are
absent, those fields being selected only by the full detail query — and for
up to one hour the detail read path serves exactly this object from the
cache without consulting the network. -/
theorem preload_overwrites_detail_with_list_shape
    (db : List Event) (groupId : Nat) (upcomingOnly : Bool) (st : Storage)
    (tFetch tRead : Int) (e : Event) (net : Option Event)
    (hmem : e ∈ (useEventsQueryFnRun db groupId upcomingOnly st tFetch).1)
    (hnd : ((useEventsQueryFnRun db groupId upcomingOnly st tFetch).1.map
      Event.id).Nodup)
    (hfresh : tRead - tFetch < eventDetailCache.maxAge) :
    eventDetailCache.get (useEventsQueryFnRun db groupId upcomingOnly st tFetch).2
        tRead e.id = some e ∧
    e.participants = none ∧ e.tickets = none ∧
    useEventDetailQueryFn false
        (useEventsQueryFnRun db groupId upcomingOnly st tFetch).2 tRead e.id net =
      (some e, (useEventsQueryFnRun db groupId upcomingOnly st tFetch).2, false) := by
  have hget : eventDetailCache.get
      (useEventsQueryFnRun db groupId upcomingOnly st tFetch).2 tRead e.id =
      some e :=
    preload_get tFetch tRead hfresh _ st e hmem hnd
  have hmem2 : e ∈ ((((db.filter (matchesWhere
      (useEventsQuery groupId upcomingOnly).whereClause)).insertionSort
        startLE).drop (useEventsQuery groupId upcomingOnly).offset).take
        (useEventsQuery groupId upcomingOnly).limit).map listShape := hmem
  obtain ⟨e2, _, he2⟩ := List.mem_map.mp hmem2
  refine ⟨hget, by rw [← he2]; rfl, by rw [← he2]; rfl, ?_⟩
  show (match eventDetailCache.get
      (useEventsQueryFnRun db groupId upcomingOnly st tFetch).2 tRead e.id with
    | some ev => (some ev,
        (useEventsQueryFnRun db groupId upcomingOnly st tFetch).2, false)
    | none =>
      match net with
      | some ev => (some ev, eventDetailCache.set
          (useEventsQueryFnRun db groupId upcomingOnly st tFetch).2 tRead e.id ev,
          true)
      | none => (none,
          (useEventsQueryFnRun db groupId upcomingOnly st tFetch).2, true)) = _
  rw [hget]

/-- A full-detail event snapshot: participants and tickets present. -/
def fullDetailEvent : Event :=
  { id := 3, title := "Workshop", group_id := 3579, start_time := 1,
    end_time := 99, participants_count := 5, participants := some [9],
    tickets := some [2] }

/-- Witness for C9: the list refetch at time 10 overwrites the full detail
snapshot stored at time 0; a read at time 20 gets the list-shaped object
(no participants field) straight from the cache. -/
theorem preload_overwrites_detail_with_list_shape_witness :
    eventDetailCache.get (useEventsQueryFnRun [fullDetailEvent] 3579 false
        (eventDetailCache.set Storage.empty 0 3 fullDetailEvent) 10).2 20 3 =
      some (listShape fullDetailEvent) ∧
    (listShape fullDetailEvent).participants = none ∧
    fullDetailEvent.participants = some [9] := by
  have h := preload_overwrites_detail_with_list_shape [fullDetailEvent] 3579 false
    (eventDetailCache.set Storage.empty 0 3 fullDetailEvent) 10 20
    (listShape fullDetailEvent) none (by decide) (by decide) (by decide)
  exact ⟨h.1, h.2.1, rfl⟩

end SocialLayer
